import Mathlib

/-
  Verification of the xint-rs repository (TUI dashboard, src/commands/tui.rs,
  and MCP JSON-RPC server, src/mcp.rs) against its specification.

  The Rust sources are shallowly embedded: pure functions become Lean
  functions, in-place mutation becomes explicit state passing, machine
  integers (usize) become Nat (Rust's saturating_sub is Nat subtraction,
  saturating_add is Nat addition, which never overflows here), and fallible
  code returns Option / Except.  Rust String operations that the code uses
  (to_ascii_lowercase, trim, trim_end, starts_with, contains, eq_ignore_ascii_case)
  are modelled on the character-list representation of Lean strings.
-/

namespace Xint

/-! ## String helpers (models of the Rust `str` methods used by the sources) -/

/-- Model of Rust `str::to_ascii_lowercase`: `Char.toLower` only lowers
ASCII letters, matching the Rust ASCII-only behaviour. -/
def lowerStr (s : String) : String := ⟨s.data.map Char.toLower⟩

/-- Model of Rust `str::trim` (whitespace removed from both ends). -/
def trimStr (s : String) : String :=
  ⟨((s.data.dropWhile Char.isWhitespace).reverse.dropWhile Char.isWhitespace).reverse⟩

/-- Model of Rust `str::trim_end` (trailing whitespace removed). -/
def trimEndStr (s : String) : String :=
  ⟨(s.data.reverse.dropWhile Char.isWhitespace).reverse⟩

/-- Model of Rust `str::starts_with`. -/
def startsW (s p : String) : Bool := p.data.isPrefixOf s.data

/-- Substring search on character lists (helper for `strContains`). -/
def subSearch (nee : List Char) : List Char → Bool
  | [] => nee.isEmpty
  | c :: rest => List.isPrefixOf nee (c :: rest) || subSearch nee rest

/-- Model of Rust `str::contains` (substring containment). -/
def strContains (hay nee : String) : Bool := subSearch nee.data hay.data

/-- Model of Rust `str::eq_ignore_ascii_case`. -/
def eqIgnoreCase (a b : String) : Bool := lowerStr a == lowerStr b

/-! ## TUI data model (src/commands/tui.rs) -/

/-- `struct MenuOption` of tui.rs: key, label, aliases, hint. -/
structure MenuOption where
  key : String
  label : String
  aliases : List String
  hint : String
deriving DecidableEq

/-- `enum DashboardTab` of tui.rs. -/
inductive DashboardTab where
  | Commands
  | Output
  | Help
deriving DecidableEq

/-- `DashboardTab::next` of tui.rs. -/
def DashboardTab.next : DashboardTab → DashboardTab
  | .Commands => .Output
  | .Output => .Help
  | .Help => .Commands

/-- `struct UiState` of tui.rs. -/
structure UiState where
  active_index : Nat
  tab : DashboardTab
  output_offset : Nat
  output_search : String

/-- `struct SessionState` of tui.rs. -/
structure SessionState where
  last_search : Option String := none
  last_location : Option String := none
  last_username : Option String := none
  last_tweet_ref : Option String := none
  last_article_url : Option String := none
  last_command : Option String := none
  last_status : Option String := none
  last_output_lines : List String := []

/-- `MENU_OPTIONS` of tui.rs: the static seven-entry menu table. -/
def MENU_OPTIONS : List MenuOption := [
  { key := "1", label := "Search", aliases := ["search", "s"],
    hint := "keyword, topic, or boolean query" },
  { key := "2", label := "Trends", aliases := ["trends", "trend", "t"],
    hint := "location name or blank for global" },
  { key := "3", label := "Profile", aliases := ["profile", "user", "p"],
    hint := "username (without @)" },
  { key := "4", label := "Thread", aliases := ["thread", "th"],
    hint := "tweet id or tweet url" },
  { key := "5", label := "Article", aliases := ["article", "a"],
    hint := "article url or tweet url" },
  { key := "6", label := "Help", aliases := ["help", "h", "?"],
    hint := "show full CLI help" },
  { key := "0", label := "Exit", aliases := ["exit", "quit", "q"],
    hint := "close interactive mode" }]

/-- The option-scanning loop inside `normalize_choice`: return the first
option whose key or alias list matches the normalized value. -/
def choiceLookup (value : String) : List MenuOption → Option String
  | [] => none
  | o :: rest =>
    if o.key = value then some o.key
    else if value ∈ o.aliases then some o.key
    else choiceLookup value rest

/-- `normalize_choice` of tui.rs: trim and ASCII-lowercase the raw input,
reject empty input, then scan `MENU_OPTIONS` for an exact key or alias match. -/
def normalize_choice (raw : String) : Option String :=
  let value := lowerStr (trimStr raw)
  if value.isEmpty then none
  else choiceLookup value MENU_OPTIONS

/-- `score_option` of tui.rs: additive fuzzy score of one menu option against
a query (exact key 100, exact label 90, exact alias 80, label prefix 70,
alias prefix 60, label substring 40, hint substring 20). -/
def score_option (o : MenuOption) (query : String) : Nat :=
  let q := lowerStr query
  if q.isEmpty then 0
  else
    (if o.key == q then 100 else 0) +
    (if eqIgnoreCase o.label q then 90 else 0) +
    (if o.aliases.any (fun a => eqIgnoreCase a q) then 80 else 0) +
    (if startsW (lowerStr o.label) q then 70 else 0) +
    (if o.aliases.any (fun a => startsW (lowerStr a) q) then 60 else 0) +
    (if strContains (lowerStr o.label) q then 40 else 0) +
    (if strContains (lowerStr o.hint) q then 20 else 0)

/-- The enumerate-and-fold loop body of `match_palette`: track the best index
and best score, replacing only on a strictly greater score. -/
def paletteLoop (q : String) : Nat → List MenuOption → Option Nat → Nat → Option Nat × Nat
  | _, [], best, bestScore => (best, bestScore)
  | i, o :: rest, best, bestScore =>
    let s := score_option o q
    if bestScore < s then paletteLoop q (i + 1) rest (some i) s
    else paletteLoop q (i + 1) rest best bestScore

/-- `match_palette` of tui.rs: trim the query, reject empty input, scan all
options for the best strictly-positive score. -/
def match_palette (query : String) : Option Nat :=
  let trimmed := trimStr query
  if trimmed.isEmpty then none
  else
    let bs := paletteLoop trimmed 0 MENU_OPTIONS none 0
    if 0 < bs.2 then bs.1 else none

/-- `append_output` of tui.rs: trim the line's trailing whitespace, drop it if
empty, push it, and when more than 1200 lines are retained keep only the most
recent 1200 (the Rust code copies `lines[len - 1200..]`). -/
def append_output (lines : List String) (line : String) : List String :=
  let trimmed := trimEndStr line
  if trimmed.isEmpty then lines
  else
    let ls := lines ++ [trimmed]
    if 1200 < ls.length then ls.drop (ls.length - 1200) else ls

/-- The last `n` elements of a list (what `lines[len - n..]` retains). -/
def lastN (n : Nat) (l : List α) : List α := l.drop (l.length - n)

/-- The nonempty trimmed lines that `append_output` actually retains from a
stream of raw lines, in arrival order. -/
def processedLines (ls : List String) : List String :=
  (ls.map trimEndStr).filter (fun s => !s.isEmpty)

/-! ### output_view_lines (src/commands/tui.rs), decomposed -/

/-- The filtered output lines computed at the top of `output_view_lines`:
all retained lines, or only those containing the lowercased trimmed search. -/
def filteredOutput (sess : SessionState) (ui : UiState) : List String :=
  let query := lowerStr (trimStr ui.output_search)
  if query.isEmpty then sess.last_output_lines
  else sess.last_output_lines.filter (fun line => strContains (lowerStr line) query)

/-- `let visible = max(1, viewport)` of `output_view_lines`. -/
def visibleRows (viewport : Nat) : Nat := max 1 viewport

/-- The offset clamp of `output_view_lines`: if the stored offset exceeds
`filtered.len().saturating_sub(visible)` it is pulled back to that bound
(Nat subtraction is saturating subtraction). -/
def clampOffset (sess : SessionState) (ui : UiState) (viewport : Nat) : UiState :=
  let maxOffset := (filteredOutput sess ui).length - visibleRows viewport
  if maxOffset < ui.output_offset then { ui with output_offset := maxOffset } else ui

/-- `start` of the rendering slice in `output_view_lines`:
`filtered.len().saturating_sub(visible.saturating_add(offset))` after clamping. -/
def sliceStart (sess : SessionState) (ui : UiState) (viewport : Nat) : Nat :=
  (filteredOutput sess ui).length -
    (visibleRows viewport + (clampOffset sess ui viewport).output_offset)

/-- `end` of the rendering slice: `(start + visible).min(filtered.len())`. -/
def sliceEnd (sess : SessionState) (ui : UiState) (viewport : Nat) : Nat :=
  min (sliceStart sess ui viewport + visibleRows viewport) (filteredOutput sess ui).length

/-- `output_view_lines` of tui.rs.  The `&mut UiState` offset clamp is made
explicit: the function returns the rendered lines together with the updated
UI state. -/
def output_view_lines (sess : SessionState) (ui : UiState) (viewport : Nat) :
    List String × UiState :=
  let filtered := filteredOutput sess ui
  let ui2 := clampOffset sess ui viewport
  let s := sliceStart sess ui viewport
  let e := sliceEnd sess ui viewport
  let header : List String := [
    "Last run", "",
    "command: " ++ (sess.last_command.getD "-"),
    "status: " ++ (sess.last_status.getD "-"),
    "filter: " ++
      (if (trimStr ui.output_search).isEmpty then "(none)" else trimStr ui.output_search),
    "", "output:"]
  let body : List String :=
    if e ≤ s then ["(no output lines for current filter)"]
    else (filtered.drop s).take (e - s)
  let total := filtered.length
  let fromIdx := if total = 0 then 0 else s + 1
  let toIdx := if total = 0 then 0 else e
  let footer : List String := ["",
    "view " ++ toString fromIdx ++ "-" ++ toString toIdx ++ " of " ++ toString total ++
      " | offset " ++ toString ui2.output_offset]
  (header ++ body ++ footer, ui2)

/-! ### select_option_interactive (src/commands/tui.rs)

The interactive selection loop is embedded as a function over a finite list
of incoming terminal events.  Raw-mode state is threaded explicitly as a
Bool; `RawModeGuard`'s `Drop` impl (which the Rust compiler runs on every
scope exit, normal return and `?`-propagation alike) is made explicit: every
exit edge of the loop performs the guard's `disable_raw_mode`.  Fallibility
of `event::read` and of `prompt_line` is injected through the event stream;
`render_dashboard` is modelled as pure (its only state effect, the offset
clamp, is `output_view_lines` above and does not affect control flow or the
terminal mode). -/

/-- Outcome of one `prompt_line` call (Ok with the line read, or an IO error). -/
inductive PromptResult where
  | ok (s : String)
  | fail

/-- The crossterm key codes distinguished by the loop's match. -/
inductive KeyCodeM where
  | up
  | down
  | tabKey
  | pageUp
  | pageDown
  | enter
  | esc
  | char (c : Char)
  | otherKey

/-- One iteration's worth of external input: an `event::read` error, a
non-key event, or a key event.  `prompt` and `reEnableOk` carry the outcome
of the `prompt_line` call and of the `enable_raw_mode` re-entry that only
the F-search and palette branches perform. -/
inductive TuiEvent where
  | readErr
  | nonKey
  | key (code : KeyCodeM) (prompt : PromptResult) (reEnableOk : Bool)

/-- The `Enter` arm's selection:
`MENU_OPTIONS.get(active_index).map(|o| o.key).unwrap_or("0")`. -/
def selectedKey (ui : UiState) : String :=
  ((MENU_OPTIONS.get? ui.active_index).map (fun o => o.key)).getD "0"

/-- The event loop of `select_option_interactive`.  Returns `none` if the
event list is exhausted while the loop is still waiting (paired with the
current raw-mode state), or `some result` on an exit edge (paired with the
raw-mode state after the guard's drop ran). -/
def selectLoop : List TuiEvent → SessionState → UiState → Bool →
    Option (Except Unit String) × Bool
  | [], _, _, raw => (none, raw)
  | .readErr :: _, _, _, _ => (some (.error ()), false)
  | .nonKey :: rest, sess, ui, raw => selectLoop rest sess ui raw
  | .key code prompt reEnableOk :: rest, sess, ui, raw =>
    match code with
    | .up =>
      let idx := if ui.active_index = 0 then MENU_OPTIONS.length - 1
                 else ui.active_index - 1
      selectLoop rest sess { ui with active_index := idx } raw
    | .down =>
      selectLoop rest sess
        { ui with active_index := (ui.active_index + 1) % MENU_OPTIONS.length } raw
    | .tabKey => selectLoop rest sess { ui with tab := ui.tab.next } raw
    | .pageUp =>
      if ui.tab = .Output then
        selectLoop rest sess { ui with output_offset := ui.output_offset + 10 } raw
      else selectLoop rest sess ui raw
    | .pageDown =>
      if ui.tab = .Output then
        selectLoop rest sess { ui with output_offset := ui.output_offset - 10 } raw
      else selectLoop rest sess ui raw
    | .enter => (some (.ok (selectedKey ui)), false)
    | .esc => (some (.ok "0"), false)
    | .char c =>
      if c = 'q' then (some (.ok "0"), false)
      else if c = '?' then selectLoop rest sess { ui with tab := .Help } raw
      else if c = '1' then selectLoop rest sess { ui with tab := .Commands } raw
      else if c = '2' then selectLoop rest sess { ui with tab := .Output } raw
      else if c = '3' then selectLoop rest sess { ui with tab := .Help } raw
      else if c = 'f' ∨ c = 'F' then
        match prompt with
        | .fail => (some (.error ()), false)
        | .ok s =>
          if reEnableOk then
            let query := trimStr s
            let search := trimStr query
            let ui2 := { ui with output_search := search, output_offset := 0,
                                 tab := .Output }
            let status := if search.isEmpty then "output filter cleared"
                          else "output filter active: " ++ search
            let sess2 := { sess with last_status := some status }
            selectLoop rest sess2 ui2 true
          else (some (.error ()), false)
      else if c = '/' then
        match prompt with
        | .fail => (some (.error ()), false)
        | .ok s =>
          if reEnableOk then
            let query := trimStr s
            match match_palette query with
            | some index => (some (.ok (selectedKey { ui with active_index := index })), false)
            | none =>
              let status := "no palette match: " ++
                (if (trimStr query).isEmpty then "(empty)" else trimStr query)
              let sess2 := { sess with last_status := some status }
              selectLoop rest sess2 ui true
          else (some (.error ()), false)
      else
        match normalize_choice (String.singleton c) with
        | some value => (some (.ok value), false)
        | none => selectLoop rest sess ui raw
    | .otherKey => selectLoop rest sess ui raw

/-- `select_option_interactive` of tui.rs.  `isTty` is the
`stdin().is_terminal() && stdout().is_terminal()` check; `nonTtyInput` the
`prompt_line` outcome on the non-TTY path (prompt_line trims the line it
reads); `enableOk` whether the initial `enable_raw_mode()?` succeeds
(on failure the error propagates before raw mode was entered). -/
def select_option_interactive (isTty : Bool) (nonTtyInput : PromptResult)
    (enableOk : Bool) (events : List TuiEvent) (sess : SessionState) (ui : UiState) :
    Option (Except Unit String) × Bool :=
  if isTty = false then
    (some (match nonTtyInput with | .ok s => .ok (trimStr s) | .fail => .error ()), false)
  else if enableOk = false then (some (.error ()), false)
  else selectLoop events sess ui true

/-! ## MCP server (src/mcp.rs) -/

/-- Modelled from the spec: `PolicyMode` (crate::cli, not in this excerpt) is
an ordered permission enum, ReadOnly below Engagement, gating which tools may
run. -/
inductive PolicyMode where
  | ReadOnly
  | Engagement
deriving DecidableEq

/-- Numeric rank giving the ordering of the policy enum. -/
def PolicyMode.rank : PolicyMode → Nat
  | .ReadOnly => 0
  | .Engagement => 1

/-- Modelled from the spec: `policy::is_allowed(mode, required)` (module
`policy`, not in this excerpt) holds when the configured mode is at least the
required mode in the policy ordering. -/
def is_allowed (mode required : PolicyMode) : Bool := required.rank ≤ mode.rank

/-- Modelled from the spec: `policy::as_str` (module `policy`, not in this
excerpt) renders a policy mode for the `--policy <read_only|engagement|...>`
flag and the denial payloads. -/
def policy_as_str : PolicyMode → String
  | .ReadOnly => "read_only"
  | .Engagement => "engagement"

/-- Modelled from the spec: the record returned by
`costs::check_budget(path)` (module `costs`, not in this excerpt):
`{allowed, spent, limit, remaining}`.  Dollar amounts are modelled as
rationals; the code in this excerpt only copies them into the payload. -/
structure BudgetStatus where
  allowed : Bool
  spent : Rat
  limit : Rat
  remaining : Rat

/-- Modelled from the spec: `costs::check_budget` itself, with the costs-file
lookup abstracted into the `allowed`, `spent` and `limit` inputs; per the
spec the reported remaining equals `limit - spent` clamped at zero. -/
def check_budget (allowed : Bool) (spent limit : Rat) : BudgetStatus :=
  { allowed := allowed, spent := spent, limit := limit,
    remaining := max (limit - spent) 0 }

/-- `struct MCPServer` of mcp.rs.  The two collaborator paths are opaque
strings; they are only handed to the external `costs`/`reliability` modules. -/
structure MCPServer where
  initialized : Bool
  policy_mode : PolicyMode
  enforce_budget : Bool
  costs_path : String
  reliability_path : String

/-- `struct MCPContent` of mcp.rs. -/
structure MCPContent where
  content_type : String
  text : String

/-- A minimal model of `serde_json::Value`.  Numbers are modelled as
integers: the excerpt only reads them through `as_u64` and writes integral
values. -/
inductive Json where
  | null
  | bool (b : Bool)
  | num (n : Int)
  | str (s : String)
  | arr (xs : List Json)
  | obj (fields : List (String × Json))

/-- `serde_json::Value::get(key)`: object-field lookup, `None` on
non-objects. -/
def Json.get : Json → String → Option Json
  | .obj fields, k => (fields.find? (fun f => f.1 == k)).map (fun f => f.2)
  | _, _ => none

/-- `Value::as_str`. -/
def Json.asStr : Json → Option String
  | .str s => some s
  | _ => none

/-- `Value::as_array` (the `cloned()` copy is implicit in a pure model). -/
def Json.asArr : Json → Option (List Json)
  | .arr xs => some xs
  | _ => none

/-- `Value::as_u64` over integer-modelled numbers: defined on non-negatives. -/
def Json.asU64 : Json → Option Nat
  | .num n => if 0 ≤ n then some n.toNat else none
  | _ => none

/-- `Value::as_bool`. -/
def Json.asBool : Json → Option Bool
  | .bool b => some b
  | _ => none

/-- `Option::ok_or` followed by `?`: lift an optional value into `Except`. -/
def okOr (o : Option α) (e : String) : Except String α :=
  match o with
  | some a => .ok a
  | none => .error e

/-- `tool_required_policy` of mcp.rs: three tools require Engagement, every
other name maps to ReadOnly. -/
def tool_required_policy (name : String) : PolicyMode :=
  if name = "xint_bookmarks" ∨ name = "xint_diff" ∨ name = "xint_package_publish"
  then .Engagement else .ReadOnly

/-- `tool_budget_guarded` of mcp.rs: the `matches!` list of budget-guarded
tool names. -/
def tool_budget_guarded (name : String) : Bool :=
  if name ∈ ["xint_search", "xint_profile", "xint_thread", "xint_tweet",
    "xint_trends", "xint_xsearch", "xint_collections_list",
    "xint_collections_search", "xint_analyze", "xint_article",
    "xint_bookmarks", "xint_watch", "xint_diff", "xint_report",
    "xint_sentiment", "xint_package_create", "xint_package_query",
    "xint_package_refresh", "xint_package_search", "xint_package_publish"]
  then true else false

/-- An ASCII single quote, used by the policy denial message. -/
def squote : String := String.singleton (Char.ofNat 39)

/-- The structured `POLICY_DENIED` payload built by `ensure_tool_allowed`
(the source serializes it to a JSON string; the embedding keeps it
structured). -/
structure PolicyDeniedPayload where
  code : String
  message : String
  tool : String
  policy_mode : String
  required_mode : String
deriving DecidableEq

/-- The structured `BUDGET_DENIED` payload built by `ensure_budget_allowed`.
Its human-readable `message` interpolates `spent` and `limit` with Rust
float formatting and is elided here; the structured fields carry the same
figures. -/
structure BudgetDeniedPayload where
  code : String
  tool : String
  spent_usd : Rat
  limit_usd : Rat
  remaining_usd : Rat
deriving DecidableEq

/-- `ensure_tool_allowed` of mcp.rs: pass when the configured policy admits
the tool's required policy, otherwise produce the `POLICY_DENIED` payload.
`none` models `Ok(())`, `some p` models `Err(payload-json)`. -/
def ensure_tool_allowed (s : MCPServer) (name : String) : Option PolicyDeniedPayload :=
  let required := tool_required_policy name
  if is_allowed s.policy_mode required then none
  else some {
    code := "POLICY_DENIED",
    message := "MCP tool " ++ squote ++ name ++ squote ++ " requires " ++ squote ++
      policy_as_str required ++ squote ++ " policy mode",
    tool := name,
    policy_mode := policy_as_str s.policy_mode,
    required_mode := policy_as_str required }

/-- `ensure_budget_allowed` of mcp.rs: pass unless budget enforcement is on,
the tool is budget-guarded, and the budget check (whose result is the
`budget` argument, the value `costs::check_budget(&self.costs_path)`
returned) reports not allowed. -/
def ensure_budget_allowed (s : MCPServer) (name : String) (budget : BudgetStatus) :
    Option BudgetDeniedPayload :=
  if !s.enforce_budget || !tool_budget_guarded name then none
  else if budget.allowed then none
  else some {
    code := "BUDGET_DENIED",
    tool := name,
    spent_usd := budget.spent,
    limit_usd := budget.limit,
    remaining_usd := budget.remaining }

/-- HTTP methods used by the package-API calls (`reqwest::Method`). -/
inductive HttpMethod where
  | GET
  | POST
deriving DecidableEq

/-- The external collaborators `execute_tool` consults, abstracted:
`api` is `call_package_api` (network + env-var lookup, returning decoded
JSON or a descriptive error string), `toStringPretty` is
`serde_json::to_string_pretty` (total on values), `defaultTimeWindow` is
the `chrono::Utc::now()`-based default window of `xint_package_create`. -/
structure ExternalEnv where
  api : HttpMethod → String → Option Json → Except String Json
  toStringPretty : Json → String
  defaultTimeWindow : Json

/-- `execute_tool` of mcp.rs: dispatch on the tool name; placeholder text
payloads for most tools, package-API forwarding for the `package_*` tools,
and an `Unknown tool` error for anything else. -/
def execute_tool (env : ExternalEnv) (name : String) (args : Json) :
    Except String (List MCPContent) :=
  if name = "xint_search" then do
    let query ← okOr ((args.get "query").bind Json.asStr) "Missing query"
    let limit := ((args.get "limit").bind Json.asU64).getD 15
    .ok [⟨"text", "Search: " ++ query ++ " (limit: " ++ toString limit ++ ")"⟩]
  else if name = "xint_profile" then do
    let username ← okOr ((args.get "username").bind Json.asStr) "Missing username"
    .ok [⟨"text", "Profile: @" ++ username⟩]
  else if name = "xint_thread" then do
    let tweet_id ← okOr ((args.get "tweet_id").bind Json.asStr) "Missing tweet_id"
    .ok [⟨"text", "Thread for tweet: " ++ tweet_id⟩]
  else if name = "xint_tweet" then do
    let tweet_id ← okOr ((args.get "tweet_id").bind Json.asStr) "Missing tweet_id"
    .ok [⟨"text", "Tweet: " ++ tweet_id⟩]
  else if name = "xint_trends" then
    let location := ((args.get "location").bind Json.asStr).getD "worldwide"
    .ok [⟨"text", "Trends for: " ++ location⟩]
  else if name = "xint_xsearch" then do
    let query ← okOr ((args.get "query").bind Json.asStr) "Missing query"
    .ok [⟨"text", "X-Search: " ++ query⟩]
  else if name = "xint_collections_list" then
    .ok [⟨"text", "Collections: []"⟩]
  else if name = "xint_analyze" then do
    let query ← okOr ((args.get "query").bind Json.asStr) "Missing query"
    .ok [⟨"text", "Analysis: " ++ query⟩]
  else if name = "xint_article" then do
    let url ← okOr ((args.get "url").bind Json.asStr) "Missing url"
    .ok [⟨"text", "Article: " ++ url⟩]
  else if name = "xint_collections_search" then do
    let collection_id ← okOr ((args.get "collection_id").bind Json.asStr)
      "Missing collection_id"
    let query ← okOr ((args.get "query").bind Json.asStr) "Missing query"
    .ok [⟨"text", "Collections search in " ++ collection_id ++ ": " ++ query⟩]
  else if name = "xint_bookmarks" then
    .ok [⟨"text", "Bookmarks: OAuth required"⟩]
  else if name = "xint_package_create" then do
    let payload := Json.obj [
      ("name", .str (((args.get "name").bind Json.asStr).getD "")),
      ("topic_query", .str (((args.get "topic_query").bind Json.asStr).getD "")),
      ("sources", .arr (((args.get "sources").bind Json.asArr).getD [])),
      ("time_window", (args.get "time_window").getD env.defaultTimeWindow),
      ("policy", .str (((args.get "policy").bind Json.asStr).getD "private")),
      ("analysis_profile",
        .str (((args.get "analysis_profile").bind Json.asStr).getD "summary"))]
    let r ← env.api .POST "/packages" (some payload)
    .ok [⟨"text", env.toStringPretty r⟩]
  else if name = "xint_package_status" then do
    let package_id ← okOr ((args.get "package_id").bind Json.asStr) "Missing package_id"
    let r ← env.api .GET ("/packages/" ++ package_id) none
    .ok [⟨"text", env.toStringPretty r⟩]
  else if name = "xint_package_query" then do
    let query ← okOr ((args.get "query").bind Json.asStr) "Missing query"
    let package_ids := ((args.get "package_ids").bind Json.asArr).getD []
    if package_ids.isEmpty then .error "Missing package_ids"
    else do
      let payload := Json.obj [
        ("query", .str query),
        ("package_ids", .arr package_ids),
        ("max_claims", .num (((args.get "max_claims").bind Json.asU64).getD 10 : Nat)),
        ("require_citations", .bool (((args.get "require_citations").bind Json.asBool).getD true))]
      let r ← env.api .POST "/query" (some payload)
      .ok [⟨"text", env.toStringPretty r⟩]
  else if name = "xint_package_refresh" then do
    let package_id ← okOr ((args.get "package_id").bind Json.asStr) "Missing package_id"
    let reason ← okOr ((args.get "reason").bind Json.asStr) "Missing reason"
    let r ← env.api .POST ("/packages/" ++ package_id ++ "/refresh")
      (some (Json.obj [("reason", .str reason)]))
    .ok [⟨"text", env.toStringPretty r⟩]
  else if name = "xint_package_search" then do
    let query ← okOr ((args.get "query").bind Json.asStr) "Missing query"
    let limit := ((args.get "limit").bind Json.asU64).getD 20
    let query_encoded := query.replace " " "%20"
    let path := "/packages/search?q=" ++ query_encoded ++ "&limit=" ++ toString limit
    let r ← env.api .GET path none
    .ok [⟨"text", env.toStringPretty r⟩]
  else if name = "xint_package_publish" then do
    let package_id ← okOr ((args.get "package_id").bind Json.asStr) "Missing package_id"
    let snapshot_version ← okOr ((args.get "snapshot_version").bind Json.asU64)
      "Missing snapshot_version"
    let r ← env.api .POST ("/packages/" ++ package_id ++ "/publish")
      (some (Json.obj [("snapshot_version", .num (snapshot_version : Nat))]))
    .ok [⟨"text", env.toStringPretty r⟩]
  else if name = "xint_cache_clear" then
    .ok [⟨"text", "Cache cleared"⟩]
  else if name = "xint_watch" then do
    let query ← okOr ((args.get "query").bind Json.asStr) "Missing query"
    .ok [⟨"text", "Watch: " ++ query ++ " (use CLI for real-time monitoring)"⟩]
  else if name = "xint_diff" then do
    let username ← okOr ((args.get "username").bind Json.asStr) "Missing username"
    .ok [⟨"text", "Diff tracking for @" ++ username⟩]
  else if name = "xint_report" then do
    let topic ← okOr ((args.get "topic").bind Json.asStr) "Missing topic"
    .ok [⟨"text", "Report on: " ++ topic ++ " (requires XAI_API_KEY)"⟩]
  else if name = "xint_sentiment" then
    .ok [⟨"text", "Sentiment analysis (requires XAI_API_KEY)"⟩]
  else if name = "xint_costs" then
    let period := ((args.get "period").bind Json.asStr).getD "today"
    .ok [⟨"text", "Cost tracking for period: " ++ period⟩]
  else .error ("Unknown tool: " ++ name)

/-- The names of the 23 tools declared by `get_tools()` (the registered
catalog served by `tools/list`), in declaration order.  The descriptor
records also carry descriptions and JSON input schemas, which no code in
the excerpt inspects; only the names participate in dispatch. -/
def toolNames : List String :=
  ["xint_search", "xint_profile", "xint_thread", "xint_tweet", "xint_trends",
   "xint_xsearch", "xint_collections_list", "xint_analyze", "xint_article",
   "xint_collections_search", "xint_bookmarks", "xint_package_create",
   "xint_package_status", "xint_package_query", "xint_package_refresh",
   "xint_package_search", "xint_package_publish", "xint_cache_clear",
   "xint_watch", "xint_diff", "xint_report", "xint_sentiment", "xint_costs"]

/-- Outcome of the policy-gate / budget-gate / execution chain inside the
`tools/call` arm of `handle_message` (the `execution` variable).  In the
source each denial payload is serialized into the error string; the
embedding keeps the three error provenances structured. -/
inductive ToolCallOutcome where
  | ok (content : List MCPContent)
  | policyDenied (p : PolicyDeniedPayload)
  | budgetDenied (p : BudgetDeniedPayload)
  | execError (msg : String)

/-- The gating chain of the `tools/call` arm: `ensure_tool_allowed`, then
`ensure_budget_allowed`, then `execute_tool`. -/
def toolCallExecution (s : MCPServer) (name : String) (budget : BudgetStatus)
    (exec : Except String (List MCPContent)) : ToolCallOutcome :=
  match ensure_tool_allowed s name with
  | some p => .policyDenied p
  | none =>
    match ensure_budget_allowed s name budget with
    | some p => .budgetDenied p
    | none =>
      match exec with
      | .error e => .execError e
      | .ok c => .ok c

/-- The error message of a JSON-RPC error response: a plain string for the
unknown-method arm, or a serialized `ToolCallOutcome` failure for the
`tools/call` arm. -/
inductive RpcErrMsg where
  | plain (s : String)
  | policy (p : PolicyDeniedPayload)
  | budget (p : BudgetDeniedPayload)
  | exec (msg : String)

/-- The JSON responses `handle_message` serializes, kept structured: the
fixed `initialize` result, the fixed `tools/list` catalog result, a
`tools/call` content result, or a JSON-RPC error object `{code, message}`.
Each carries the echoed request `id`. -/
inductive RpcResponse where
  | initResult (id : Option Json)
  | toolsList (id : Option Json)
  | callResult (id : Option Json) (content : List MCPContent)
  | rpcError (id : Option Json) (code : Int) (message : RpcErrMsg)

/-- The four reply arms of the `tools/call` match in `handle_message`: a
content result on success, a `-32603` JSON-RPC error carrying the failure
otherwise. -/
def toolCallReply (id : Option Json) : ToolCallOutcome → Except String (Option RpcResponse)
  | .ok content => .ok (some (.callResult id content))
  | .policyDenied p => .ok (some (.rpcError id (-32603) (.policy p)))
  | .budgetDenied p => .ok (some (.rpcError id (-32603) (.budget p)))
  | .execError e => .ok (some (.rpcError id (-32603) (.exec e)))

/-- `handle_message` of mcp.rs over an already-parsed JSON value (the
string-level `serde_json::from_str` step is outside this model; a parse
failure yields the same `Err(String)` shape as the `Missing method field`
path).  `budget` is the value `costs::check_budget` returns when the
budget gate consults it, and `env` the external collaborators of
`execute_tool`.  The reliability recording is an external side effect with
no influence on the reply and is not modelled.  Returns the successor
server state and `Ok(Some response) / Ok(None) / Err(message)`. -/
def handle_message (s : MCPServer) (env : ExternalEnv) (budget : BudgetStatus)
    (parsed : Json) : MCPServer × Except String (Option RpcResponse) :=
  match (parsed.get "method").bind Json.asStr with
  | none => (s, .error "Missing method field")
  | some method =>
    let id := parsed.get "id"
    if method = "initialize" then
      ({ s with initialized := true }, .ok (some (.initResult id)))
    else if method = "initialized" then (s, .ok none)
    else if method = "tools/list" then (s, .ok (some (.toolsList id)))
    else if method = "tools/call" then
      match parsed.get "params" with
      | none => (s, .error "Missing params")
      | some params =>
        match (params.get "name").bind Json.asStr with
        | none => (s, .error "Missing tool name")
        | some name =>
          let arguments := (params.get "arguments").getD (Json.obj [])
          (s, toolCallReply id (toolCallExecution s name budget
            (execute_tool env name arguments)))
    else (s, .ok (some (.rpcError id (-32601) (.plain ("Method not found: " ++ method)))))

/-- The sequential message loop of `run_stdio`: fold `handle_message` over a
list of parsed incoming messages, collecting every reply. -/
def runMessages (s : MCPServer) (env : ExternalEnv) (budget : BudgetStatus) :
    List Json → MCPServer × List (Except String (Option RpcResponse))
  | [] => (s, [])
  | m :: rest =>
    let step := handle_message s env budget m
    let next := runMessages step.1 env budget rest
    (next.1, step.2 :: next.2)

/-- A `tools/call` request object naming tool `name` with arguments `args`. -/
def mkToolsCall (id : Json) (name : String) (args : Json) : Json :=
  Json.obj [("method", .str "tools/call"), ("id", id),
    ("params", .obj [("name", .str name), ("arguments", args)])]

/-! ## Support values used by the concrete witnesses -/

/-- A server configured ReadOnly with budget enforcement on. -/
def srvRO : MCPServer :=
  { initialized := false, policy_mode := .ReadOnly, enforce_budget := true,
    costs_path := "costs.json", reliability_path := "reliability.json" }

/-- A trivial external environment (never reached by the witnesses). -/
def envTriv : ExternalEnv :=
  { api := fun _ _ _ => .ok .null, toStringPretty := fun _ => "", defaultTimeWindow := .null }

/-- A second, different external environment. -/
def envTriv2 : ExternalEnv :=
  { api := fun _ _ _ => .error "down", toStringPretty := fun _ => "x",
    defaultTimeWindow := .obj [] }

/-- A budget state that allows spending. -/
def budTriv : BudgetStatus := { allowed := true, spent := 0, limit := 10, remaining := 10 }

/-- An empty session. -/
def sess0 : SessionState := {}

/-- The initial UI state. -/
def ui0 : UiState :=
  { active_index := 0, tab := .Commands, output_offset := 0, output_search := "" }

/-- An option matched exactly by key for the query "x". -/
def optKeyed : MenuOption := { key := "x", label := "L", aliases := [], hint := "h" }

/-- An option whose only overlap with the query "x" is a hint substring. -/
def optHinted : MenuOption :=
  { key := "k", label := "L", aliases := [], hint := "has x inside" }

/-! # Theorems -/

/-! ## C10: output_view_lines clamps its offset and slice bounds -/

/-- C10: after every call of output_view_lines — for any session contents,
filter text and viewport size — the returned UI state's output_offset is at
most the filtered line count saturating-minus the visible row count, and the
computed slice bounds satisfy start ≤ end ≤ filtered length, so the
rendering slice of the filtered output is always in bounds. -/
theorem C10_output_view_in_bounds :
    ∀ (sess : SessionState) (ui : UiState) (viewport : Nat),
      (output_view_lines sess ui viewport).2.output_offset
          ≤ (filteredOutput sess ui).length - visibleRows viewport
      ∧ sliceStart sess ui viewport ≤ sliceEnd sess ui viewport
      ∧ sliceEnd sess ui viewport ≤ (filteredOutput sess ui).length := by
  intro sess ui viewport
  refine ⟨?_, ?_, ?_⟩
  · show (clampOffset sess ui viewport).output_offset ≤ _
    unfold clampOffset
    dsimp only
    split
    · simp
    · omega
  · unfold sliceEnd sliceStart
    omega
  · unfold sliceEnd
    omega

/-! ## C3: the output scrollback is capped at 1200 lines with FIFO eviction -/

/-- One `append_output` step on a buffer that is the 1200-line tail of some
history extends the history by the nonempty trimmed line (if any) and takes
the tail again. -/
theorem append_output_lastN (P : List String) (line : String) :
    append_output (lastN 1200 P) line =
      lastN 1200 (P ++ (if (trimEndStr line).isEmpty then [] else [trimEndStr line])) := by
  unfold append_output lastN
  cases h : (trimEndStr line).isEmpty with
  | true => simp [h]
  | false =>
    simp only [h, Bool.false_eq_true, if_false]
    have hsub : P.length - 1200 ≤ P.length := Nat.sub_le _ _
    have hkey : P.drop (P.length - 1200) ++ [trimEndStr line]
        = (P ++ [trimEndStr line]).drop (P.length - 1200) :=
      (List.drop_append_of_le_length hsub).symm
    rw [hkey]
    split
    · rename_i h2
      rw [List.drop_drop]
      refine congrArg (fun n => List.drop n (P ++ [trimEndStr line])) ?_
      simp only [List.length_drop, List.length_append, List.length_cons,
        List.length_nil] at h2 ⊢
      omega
    · rename_i h2
      refine congrArg (fun n => List.drop n (P ++ [trimEndStr line])) ?_
      simp only [List.length_drop, List.length_append, List.length_cons,
        List.length_nil] at h2 ⊢
      omega

/-- Folding `append_output` from the 1200-line tail of a history keeps the
buffer equal to the 1200-line tail of the extended history. -/
theorem foldl_append_output (ls : List String) :
    ∀ P : List String,
      ls.foldl append_output (lastN 1200 P) = lastN 1200 (P ++ processedLines ls) := by
  induction ls with
  | nil => intro P; simp [processedLines]
  | cons l rest ih =>
    intro P
    rw [List.foldl_cons, append_output_lastN, ih]
    cases h : (trimEndStr l).isEmpty with
    | true =>
      have hp : processedLines (l :: rest) = processedLines rest := by
        simp [processedLines, h]
      simp [h, hp]
    | false =>
      have hp : processedLines (l :: rest) = trimEndStr l :: processedLines rest := by
        simp [processedLines, h]
      simp [h, hp]

/-- C3: after every call of append_output the retained output buffer holds at
most 1200 lines, and the buffer built from any stream of raw lines equals the
most recently appended (nonempty, end-trimmed) lines in arrival order: the
last 1200 of them, oldest evicted first. -/
theorem C3_scrollback_cap_fifo :
    (∀ ls : List String,
        ls.foldl append_output [] = lastN 1200 (processedLines ls)
        ∧ (ls.foldl append_output []).length ≤ 1200)
    ∧ (∀ (buf : List String) (line : String), buf.length ≤ 1200 →
        (append_output buf line).length ≤ 1200) := by
  constructor
  · intro ls
    have hfold := foldl_append_output ls []
    simp only [lastN, List.drop_nil, List.nil_append] at hfold
    constructor
    · rw [hfold]; rfl
    · rw [hfold]
      simp only [List.length_drop]
      omega
  · intro buf line h
    simp only [append_output]
    split
    · exact h
    · split
      · simp only [List.length_drop]
        omega
      · rename_i hc
        simp only [List.length_append, List.length_cons, List.length_nil] at hc ⊢
        omega

/-- Witness for C3 at a concrete buffer and line. -/
theorem C3_witness :
    (["alpha"] : List String).length ≤ 1200
    ∧ (append_output ["alpha"] "beta").length ≤ 1200 :=
  ⟨by decide, C3_scrollback_cap_fifo.2 ["alpha"] "beta" (by decide)⟩

/-! ## C5: normalize_choice resolves keys and aliases -/

/-- Every key and alias in the concrete menu table is nonempty and looked up
to its own option's key (established by evaluation over the table). -/
theorem choiceLookup_table :
    ∀ o ∈ MENU_OPTIONS,
      (o.key.isEmpty = false ∧ choiceLookup o.key MENU_OPTIONS = some o.key)
      ∧ ∀ a ∈ o.aliases,
          a.isEmpty = false ∧ choiceLookup a MENU_OPTIONS = some o.key := by
  decide

/-- If no option's key or alias list matches the value, the lookup fails. -/
theorem choiceLookup_none :
    ∀ (l : List MenuOption) (v : String),
      (∀ o ∈ l, o.key ≠ v ∧ v ∉ o.aliases) → choiceLookup v l = none := by
  intro l
  induction l with
  | nil => intro v _; rfl
  | cons o rest ih =>
    intro v h
    have h0 := h o (by simp)
    have hrest : ∀ o2 ∈ rest, o2.key ≠ v ∧ v ∉ o2.aliases :=
      fun o2 ho2 => h o2 (List.mem_cons_of_mem _ ho2)
    simp only [choiceLookup, if_neg h0.1, if_neg h0.2]
    exact ih v hrest

/-- `normalize_choice` in terms of the normalized value. -/
theorem normalize_choice_eq (raw : String) :
    normalize_choice raw =
      if (lowerStr (trimStr raw)).isEmpty then none
      else choiceLookup (lowerStr (trimStr raw)) MENU_OPTIONS := rfl

/-- C5: for every declared menu option, its key and each alias resolve (after
trimming and ASCII case folding) via normalize_choice to that option's
canonical key; in particular "search", "s" and "1" all resolve to the Search
option's key "1"; empty input and input matching no key or alias resolve to
none. -/
theorem C5_normalize_choice_resolution :
    (∀ (raw : String), ∀ o ∈ MENU_OPTIONS,
        (lowerStr (trimStr raw) = o.key ∨ lowerStr (trimStr raw) ∈ o.aliases) →
        normalize_choice raw = some o.key)
    ∧ normalize_choice "search" = some "1"
    ∧ normalize_choice "s" = some "1"
    ∧ normalize_choice "1" = some "1"
    ∧ normalize_choice "" = none
    ∧ (∀ raw : String,
        (∀ o ∈ MENU_OPTIONS,
            o.key ≠ lowerStr (trimStr raw) ∧ lowerStr (trimStr raw) ∉ o.aliases) →
        normalize_choice raw = none) := by
  refine ⟨?_, by decide, by decide, by decide, by decide, ?_⟩
  · intro raw o ho hmatch
    rw [normalize_choice_eq]
    rcases hmatch with h | h
    · rw [h]
      rw [((choiceLookup_table o ho).1).1, ((choiceLookup_table o ho).1).2]
      simp
    · rw [((choiceLookup_table o ho).2 _ h).1, ((choiceLookup_table o ho).2 _ h).2]
      simp
  · intro raw h
    rw [normalize_choice_eq]
    split
    · rfl
    · exact choiceLookup_none MENU_OPTIONS _
        (fun o ho => ⟨(h o ho).1, (h o ho).2⟩)

/-- Witness for C5 at concrete inputs: an upper-cased padded alias resolves
to the Search key, and an unknown word resolves to none. -/
theorem C5_witness :
    normalize_choice " SEARCH " = some "1" ∧ normalize_choice "zzz" = none :=
  ⟨C5_normalize_choice_resolution.1 " SEARCH "
      { key := "1", label := "Search", aliases := ["search", "s"],
        hint := "keyword, topic, or boolean query" }
      (by decide) (by decide),
    C5_normalize_choice_resolution.2.2.2.2.2 "zzz" (by decide)⟩

/-! ## C1 / C2: the policy gate and the budget gate of tools/call -/

/-- Routing of a well-formed `tools/call` request through `handle_message`:
the reply is determined by the gating chain's outcome and the state is
unchanged. -/
theorem handle_toolsCall (s : MCPServer) (env : ExternalEnv) (budget : BudgetStatus)
    (id : Json) (name : String) (args : Json) :
    handle_message s env budget (mkToolsCall id name args) =
      (s, toolCallReply (some id)
        (toolCallExecution s name budget (execute_tool env name args))) := by
  rfl

/-- C1: a `tools/call` naming a tool whose required policy mode (per the
code's table: Engagement for xint_bookmarks, xint_diff and
xint_package_publish, ReadOnly for every other name) is stricter than the
configured mode is answered with the structured POLICY_DENIED payload; the
reply does not depend on the budget state or on the external environment the
tool body would consult — the budget check is not consulted and the tool
body is never executed — and the server state is unchanged. -/
theorem C1_policy_gate :
    (∀ (s : MCPServer) (env : ExternalEnv) (budget : BudgetStatus) (id : Json)
        (name : String) (args : Json),
        is_allowed s.policy_mode (tool_required_policy name) = false →
        handle_message s env budget (mkToolsCall id name args) =
          (s, .ok (some (.rpcError (some id) (-32603) (.policy {
              code := "POLICY_DENIED",
              message := "MCP tool " ++ squote ++ name ++ squote ++ " requires " ++
                squote ++ policy_as_str (tool_required_policy name) ++ squote ++
                " policy mode",
              tool := name,
              policy_mode := policy_as_str s.policy_mode,
              required_mode := policy_as_str (tool_required_policy name) })))))
    ∧ tool_required_policy "xint_bookmarks" = .Engagement
    ∧ tool_required_policy "xint_diff" = .Engagement
    ∧ tool_required_policy "xint_package_publish" = .Engagement
    ∧ (∀ name : String, name ≠ "xint_bookmarks" → name ≠ "xint_diff" →
        name ≠ "xint_package_publish" → tool_required_policy name = .ReadOnly) := by
  refine ⟨?_, by decide, by decide, by decide, ?_⟩
  · intro s env budget id name args h
    rw [handle_toolsCall]
    simp [toolCallExecution, ensure_tool_allowed, h, toolCallReply]
  · intro name h1 h2 h3
    simp [tool_required_policy, h1, h2, h3]

/-- Witness for C1: a ReadOnly server denies `xint_diff` regardless of a
permissive budget and of the external environment. -/
theorem C1_witness :
    handle_message srvRO envTriv budTriv (mkToolsCall .null "xint_diff" (Json.obj [])) =
      (srvRO, .ok (some (.rpcError (some .null) (-32603) (.policy {
          code := "POLICY_DENIED",
          message := "MCP tool " ++ squote ++ "xint_diff" ++ squote ++ " requires " ++
            squote ++ policy_as_str (tool_required_policy "xint_diff") ++ squote ++
            " policy mode",
          tool := "xint_diff",
          policy_mode := policy_as_str srvRO.policy_mode,
          required_mode := policy_as_str (tool_required_policy "xint_diff") })))) :=
  C1_policy_gate.1 srvRO envTriv budTriv .null "xint_diff" (Json.obj []) (by decide)

/-- C2: a `tools/call` naming a tool within policy but over budget (budget
enforcement on, tool budget-guarded, budget check not allowed) is answered
with the structured BUDGET_DENIED payload whose reported figures are the
budget check's spent and limit, and whose reported remaining equals
`limit - spent` clamped at zero — never negative. -/
theorem C2_budget_gate :
    ∀ (s : MCPServer) (env : ExternalEnv) (id : Json) (name : String) (args : Json)
      (spent limit : Rat),
      is_allowed s.policy_mode (tool_required_policy name) = true →
      s.enforce_budget = true →
      tool_budget_guarded name = true →
      handle_message s env (check_budget false spent limit) (mkToolsCall id name args) =
        (s, .ok (some (.rpcError (some id) (-32603) (.budget {
            code := "BUDGET_DENIED", tool := name, spent_usd := spent,
            limit_usd := limit, remaining_usd := max (limit - spent) 0 }))))
      ∧ 0 ≤ max (limit - spent) 0 := by
  intro s env id name args spent limit hpol henf hgrd
  refine ⟨?_, le_max_right _ _⟩
  rw [handle_toolsCall]
  simp [toolCallExecution, ensure_tool_allowed, ensure_budget_allowed, hpol, henf,
    hgrd, check_budget, toolCallReply]

/-- Witness for C2: a ReadOnly server with budget enforcement denies the
budget-guarded `xint_search` when the budget check reports not allowed, and
the reported remaining is the clamped difference. -/
theorem C2_witness :
    handle_message srvRO envTriv (check_budget false 12 10)
        (mkToolsCall .null "xint_search" (Json.obj [])) =
      (srvRO, .ok (some (.rpcError (some .null) (-32603) (.budget {
          code := "BUDGET_DENIED", tool := "xint_search", spent_usd := 12,
          limit_usd := 10, remaining_usd := max ((10 : Rat) - 12) 0 }))))
    ∧ (0 : Rat) ≤ max ((10 : Rat) - 12) 0 :=
  C2_budget_gate srvRO envTriv .null "xint_search" (Json.obj []) 12 10
    (by decide) (by decide) (by decide)

/-! ## C7: an unknown tool name yields an error reply, not a fault -/

/-- Every policy mode admits ReadOnly tools. -/
theorem is_allowed_readonly (m : PolicyMode) : is_allowed m .ReadOnly = true := by
  cases m <;> rfl

/-- C7: a `tools/call` naming a tool outside the registered catalog is
answered with `Ok(Some ...)` carrying a JSON-RPC error object with code
-32603 and the `Unknown tool` message — handle_message neither panics (it is
a total function) nor returns the `Err` shape that run_stdio maps to a bare
error line — and the server state is unchanged, so the connection remains
usable for the next message. -/
theorem C7_unknown_tool :
    ∀ (s : MCPServer) (env : ExternalEnv) (budget : BudgetStatus) (id : Json)
      (name : String) (args : Json),
      name ∉ toolNames →
      handle_message s env budget (mkToolsCall id name args) =
        (s, .ok (some (.rpcError (some id) (-32603)
          (.exec ("Unknown tool: " ++ name))))) := by
  intro s env budget id name args h
  simp only [toolNames, List.mem_cons, List.not_mem_nil, or_false, not_or] at h
  obtain ⟨h1, h2, h3, h4, h5, h6, h7, h8, h9, h10, h11, h12, h13, h14, h15, h16,
    h17, h18, h19, h20, h21, h22, h23⟩ := h
  rw [handle_toolsCall]
  have hreq : tool_required_policy name = .ReadOnly := by
    simp [tool_required_policy, h11, h20, h17]
  have hpol : is_allowed s.policy_mode (tool_required_policy name) = true := by
    rw [hreq]; exact is_allowed_readonly _
  have hgrd : tool_budget_guarded name = false := by
    simp [tool_budget_guarded, h1, h2, h3, h4, h5, h6, h7, h8, h9, h10, h11, h12,
      h14, h15, h16, h17, h19, h20, h21, h22]
  have hexec : execute_tool env name args = .error ("Unknown tool: " ++ name) := by
    simp [execute_tool, h1, h2, h3, h4, h5, h6, h7, h8, h9, h10, h11, h12, h13,
      h14, h15, h16, h17, h18, h19, h20, h21, h22, h23]
  rw [hexec]
  simp [toolCallExecution, ensure_tool_allowed, hpol, ensure_budget_allowed, hgrd,
    toolCallReply]

/-- Witness for C7: calling the unregistered name `xint_nope` on a concrete
server returns the error reply and leaves the state unchanged. -/
theorem C7_witness :
    handle_message srvRO envTriv budTriv (mkToolsCall .null "xint_nope" (Json.obj [])) =
      (srvRO, .ok (some (.rpcError (some .null) (-32603)
        (.exec ("Unknown tool: " ++ "xint_nope"))))) :=
  C7_unknown_tool srvRO envTriv budTriv .null "xint_nope" (Json.obj []) (by decide)

/-! ## C6: xint_package_query rejects a missing/invalid/empty package_ids
before any network call -/

/-- C6: a `tools/call` for xint_package_query whose `package_ids` argument is
absent, not an array, or an empty array is rejected with an error, and the
result does not depend on the external environment at all — in particular
`call_package_api` (the only avenue to the network, reachable only through
`env.api`) is never invoked. -/
theorem C6_package_query_rejects_empty :
    ∀ args : Json,
      (args.get "package_ids" = none
        ∨ (∃ v, args.get "package_ids" = some v ∧ v.asArr = none)
        ∨ (args.get "package_ids").bind Json.asArr = some []) →
      (∀ env1 env2 : ExternalEnv,
          execute_tool env1 "xint_package_query" args =
            execute_tool env2 "xint_package_query" args)
      ∧ (∀ env : ExternalEnv,
          execute_tool env "xint_package_query" args = .error "Missing query"
          ∨ execute_tool env "xint_package_query" args = .error "Missing package_ids") := by
  intro args h
  have hids : ((args.get "package_ids").bind Json.asArr).getD [] = ([] : List Json) := by
    rcases h with h | ⟨v, hv, hva⟩ | h
    · simp [h]
    · simp [hv, hva]
    · simp [h]
  rcases hq : (args.get "query").bind Json.asStr with _ | q
  · have hres : ∀ env : ExternalEnv,
        execute_tool env "xint_package_query" args = .error "Missing query" := by
      intro env
      simp [execute_tool, hq, okOr, bind, Except.bind]
    exact ⟨fun env1 env2 => by rw [hres env1, hres env2], fun env => Or.inl (hres env)⟩
  · have hres : ∀ env : ExternalEnv,
        execute_tool env "xint_package_query" args = .error "Missing package_ids" := by
      intro env
      simp [execute_tool, hq, okOr, hids, bind, Except.bind]
    exact ⟨fun env1 env2 => by rw [hres env1, hres env2], fun env => Or.inr (hres env)⟩

/-- Witness for C6: concrete requests with an absent, a non-array, and an
empty `package_ids` are all rejected identically under two different
external environments. -/
theorem C6_witness :
    (execute_tool envTriv "xint_package_query"
        (Json.obj [("query", .str "what happened")]) =
      execute_tool envTriv2 "xint_package_query"
        (Json.obj [("query", .str "what happened")]))
    ∧ (execute_tool envTriv "xint_package_query"
          (Json.obj [("query", .str "q"), ("package_ids", .arr [])]) = .error "Missing query"
        ∨ execute_tool envTriv "xint_package_query"
          (Json.obj [("query", .str "q"), ("package_ids", .arr [])]) =
            .error "Missing package_ids") :=
  ⟨(C6_package_query_rejects_empty (Json.obj [("query", .str "what happened")])
      (Or.inl rfl)).1 envTriv envTriv2,
    (C6_package_query_rejects_empty
      (Json.obj [("query", .str "q"), ("package_ids", .arr [])])
      (Or.inr (Or.inr rfl))).2 envTriv⟩

/-! ## C8: the initialized flag has no observable effect -/

/-- One step of the two-run equivalence: on any message, a server differing
only in the `initialized` flag produces the same reply, and the successor
states again differ at most in the flag. -/
theorem handle_message_flag (s : MCPServer) (b : Bool) (env : ExternalEnv)
    (budget : BudgetStatus) (m : Json) :
    (handle_message { s with initialized := b } env budget m).2 =
      (handle_message s env budget m).2
    ∧ ∃ c : Bool, (handle_message { s with initialized := b } env budget m).1 =
        { (handle_message s env budget m).1 with initialized := c } := by
  unfold handle_message
  rcases hm : (m.get "method").bind Json.asStr with _ | method
  · simp only [hm]
    exact ⟨by trivial, b, rfl⟩
  · simp only [hm]
    split_ifs
    · exact ⟨by trivial, true, rfl⟩
    · exact ⟨by trivial, b, rfl⟩
    · exact ⟨by trivial, b, rfl⟩
    · rcases hp : m.get "params" with _ | params
      · simp only [hp]
        exact ⟨by trivial, b, rfl⟩
      · simp only [hp]
        rcases hn : (params.get "name").bind Json.asStr with _ | name
        · simp only [hn]
          exact ⟨by trivial, b, rfl⟩
        · simp only [hn]
          exact ⟨by trivial, b, rfl⟩
    · exact ⟨by trivial, b, rfl⟩

/-- The two-run equivalence extended over any message sequence. -/
theorem runMessages_flag :
    ∀ (msgs : List Json) (s : MCPServer) (b : Bool) (env : ExternalEnv)
      (budget : BudgetStatus),
      (runMessages { s with initialized := b } env budget msgs).2 =
        (runMessages s env budget msgs).2 := by
  intro msgs
  induction msgs with
  | nil => intro s b env budget; rfl
  | cons m rest ih =>
    intro s b env budget
    obtain ⟨h2, c, h1⟩ := handle_message_flag s b env budget m
    simp only [runMessages]
    rw [h2, h1, ih]

/-- C8: the MCP server's `initialized` flag has no observable effect: for
every incoming message, and every sequence of messages, two runs whose
starting states differ only in the flag produce identical replies — no
method rejects, gates, or alters its response based on whether
`initialize`/`initialized` was received earlier. -/
theorem C8_initialized_flag_unobservable :
    ∀ (s : MCPServer) (b : Bool) (env : ExternalEnv) (budget : BudgetStatus)
      (m : Json) (msgs : List Json),
      (handle_message { s with initialized := b } env budget m).2 =
        (handle_message s env budget m).2
      ∧ (runMessages { s with initialized := b } env budget msgs).2 =
        (runMessages s env budget msgs).2 :=
  fun s b env budget m msgs =>
    ⟨(handle_message_flag s b env budget m).1, runMessages_flag msgs s b env budget⟩

/-! ## C9: raw mode is disabled on every exit path -/

set_option maxHeartbeats 2000000 in
/-- Every terminating run of the selection event loop ends with raw mode
disabled: each exit edge — normal returns and error propagations alike —
passes through the guard's drop. -/
theorem selectLoop_restores :
    ∀ (events : List TuiEvent) (sess : SessionState) (ui : UiState) (raw : Bool)
      (r : Except Unit String) (raw2 : Bool),
      selectLoop events sess ui raw = (some r, raw2) → raw2 = false := by
  intro events
  induction events with
  | nil =>
    intro sess ui raw r raw2 h
    exact absurd (congrArg Prod.fst h) (by simp [selectLoop])
  | cons e rest ih =>
    intro sess ui raw r raw2 h
    cases e with
    | readErr => exact (congrArg Prod.snd h).symm
    | nonKey => exact ih _ _ _ _ _ h
    | key code prompt reEnableOk =>
      cases code <;> cases prompt <;> cases reEnableOk <;>
        simp only [selectLoop] at h <;>
        repeat' split at h
      all_goals
        first
          | exact (congrArg Prod.snd h).symm
          | exact ih _ _ _ _ _ h

/-- C9: on every exit path of the interactive selection loop — Enter, the
quit key or Esc, a palette selection, a character shortcut, and the error
paths (read errors, prompt errors, failed raw-mode re-entry), as well as the
non-TTY path and a failed initial raw-mode entry — the terminal leaves
select_option_interactive with raw mode disabled. -/
theorem C9_raw_mode_always_restored :
    (∀ (events : List TuiEvent) (sess : SessionState) (ui : UiState) (raw : Bool)
        (r : Except Unit String) (raw2 : Bool),
        selectLoop events sess ui raw = (some r, raw2) → raw2 = false)
    ∧ (∀ (isTty : Bool) (inp : PromptResult) (enableOk : Bool)
        (events : List TuiEvent) (sess : SessionState) (ui : UiState)
        (r : Except Unit String) (raw2 : Bool),
        select_option_interactive isTty inp enableOk events sess ui = (some r, raw2) →
        raw2 = false) := by
  refine ⟨selectLoop_restores, ?_⟩
  intro isTty inp enableOk events sess ui r raw2 h
  cases isTty with
  | false =>
    simp only [select_option_interactive] at h
    exact (congrArg Prod.snd h).symm
  | true =>
    cases enableOk with
    | false =>
      simp only [select_option_interactive] at h
      exact (congrArg Prod.snd h).symm
    | true =>
      simp only [select_option_interactive] at h
      exact selectLoop_restores _ _ _ _ _ _ h

/-- Witness for C9: a concrete run that exits via Enter ends with raw mode
off. -/
theorem C9_witness :
    select_option_interactive true (.ok "") true [.key .enter (.ok "") true] sess0 ui0 =
      (some (.ok "1"), false)
    ∧ (false = false) :=
  ⟨rfl, C9_raw_mode_always_restored.2 true (.ok "") true [.key .enter (.ok "") true]
    sess0 ui0 (.ok "1") false rfl⟩

/-! ## C4: palette scoring order, tie resolution, no-overlap behaviour -/

/-- Characterization of the best-score fold of `match_palette`: either no
option beats the incoming best score (and the accumulator is returned
unchanged), or the fold returns the first index attaining the maximal score
among those strictly above the incoming one. -/
theorem paletteLoop_spec (q : String) :
    ∀ (l : List MenuOption) (i : Nat) (best : Option Nat) (s : Nat),
      (paletteLoop q i l best s = (best, s)
        ∧ ∀ k o2, l.get? k = some o2 → score_option o2 q ≤ s)
      ∨ ∃ kv o2, l.get? kv = some o2
          ∧ paletteLoop q i l best s = (some (i + kv), score_option o2 q)
          ∧ s < score_option o2 q
          ∧ (∀ m o3, l.get? m = some o3 → score_option o3 q ≤ score_option o2 q)
          ∧ (∀ m o3, m < kv → l.get? m = some o3 →
              score_option o3 q < score_option o2 q) := by
  intro l
  induction l with
  | nil =>
    intro i best s
    refine Or.inl ⟨rfl, ?_⟩
    intro k o2 hk
    simp at hk
  | cons o rest ih =>
    intro i best s
    by_cases h0 : s < score_option o q
    · rcases ih (i + 1) (some i) (score_option o q) with ⟨heq, hb⟩ |
        ⟨kv, o2, hk, heq, hlt, hall, hfirst⟩
      · refine Or.inr ⟨0, o, rfl, ?_, h0, ?_, ?_⟩
        · simp only [paletteLoop]
          rw [if_pos h0, heq]
          simp
        · intro m o3 hm
          cases m with
          | zero =>
            simp only [List.get?_cons_zero, Option.some.injEq] at hm
            subst hm
            exact le_refl _
          | succ j =>
            simp only [List.get?_cons_succ] at hm
            exact hb j o3 hm
        · intro m o3 hmlt hm
          omega
      · refine Or.inr ⟨kv + 1, o2, by simpa using hk, ?_, lt_trans h0 hlt, ?_, ?_⟩
        · simp only [paletteLoop]
          rw [if_pos h0, heq]
          have harith : i + 1 + kv = i + (kv + 1) := by omega
          rw [harith]
        · intro m o3 hm
          cases m with
          | zero =>
            simp only [List.get?_cons_zero, Option.some.injEq] at hm
            subst hm
            exact le_of_lt hlt
          | succ j =>
            simp only [List.get?_cons_succ] at hm
            exact hall j o3 hm
        · intro m o3 hmlt hm
          cases m with
          | zero =>
            simp only [List.get?_cons_zero, Option.some.injEq] at hm
            subst hm
            exact hlt
          | succ j =>
            simp only [List.get?_cons_succ] at hm
            exact hfirst j o3 (by omega) hm
    · rcases ih (i + 1) best s with ⟨heq, hb⟩ | ⟨kv, o2, hk, heq, hlt, hall, hfirst⟩
      · refine Or.inl ⟨?_, ?_⟩
        · simp only [paletteLoop]
          rw [if_neg h0, heq]
        · intro k o3 hk2
          cases k with
          | zero =>
            simp only [List.get?_cons_zero, Option.some.injEq] at hk2
            subst hk2
            omega
          | succ j =>
            simp only [List.get?_cons_succ] at hk2
            exact hb j o3 hk2
      · refine Or.inr ⟨kv + 1, o2, by simpa using hk, ?_, hlt, ?_, ?_⟩
        · simp only [paletteLoop]
          rw [if_neg h0, heq]
          have harith : i + 1 + kv = i + (kv + 1) := by omega
          rw [harith]
        · intro m o3 hm
          cases m with
          | zero =>
            simp only [List.get?_cons_zero, Option.some.injEq] at hm
            subst hm
            omega
          | succ j =>
            simp only [List.get?_cons_succ] at hm
            exact hall j o3 hm
        · intro m o3 hmlt hm
          cases m with
          | zero =>
            simp only [List.get?_cons_zero, Option.some.injEq] at hm
            subst hm
            omega
          | succ j =>
            simp only [List.get?_cons_succ] at hm
            exact hfirst j o3 (by omega) hm

/-- C4: the palette matcher's scoring is ordered and deterministic: (1) an
option matching the (lowercased) query as its exact key always outranks an
option whose only match is a hint substring; (2) whenever match_palette
selects an index, the selected option has a strictly positive score that is
maximal over all declared options, and any option with an equal score sits
at the same or a later index — among equal scores the first-declared option
is selected (match_palette is a function of the query alone, so it is
deterministic); (3) a query whose normalized form overlaps no option's key,
label, alias, or hint yields no match. -/
theorem C4_palette_scoring :
    (∀ (A B : MenuOption) (q : String),
        (lowerStr q).isEmpty = false →
        A.key = lowerStr q →
        (B.key == lowerStr q) = false →
        eqIgnoreCase B.label (lowerStr q) = false →
        (B.aliases.any fun a => eqIgnoreCase a (lowerStr q)) = false →
        startsW (lowerStr B.label) (lowerStr q) = false →
        (B.aliases.any fun a => startsW (lowerStr a) (lowerStr q)) = false →
        strContains (lowerStr B.label) (lowerStr q) = false →
        strContains (lowerStr B.hint) (lowerStr q) = true →
        score_option B q < score_option A q)
    ∧ (∀ (q : String) (i : Nat), match_palette q = some i →
        ∃ o2, MENU_OPTIONS.get? i = some o2
          ∧ 0 < score_option o2 (trimStr q)
          ∧ ∀ j o3, MENU_OPTIONS.get? j = some o3 →
              score_option o3 (trimStr q) ≤ score_option o2 (trimStr q)
              ∧ (score_option o3 (trimStr q) = score_option o2 (trimStr q) → i ≤ j))
    ∧ (∀ q : String,
        (∀ o ∈ MENU_OPTIONS,
            ((o.key == lowerStr (trimStr q)) ||
              eqIgnoreCase o.label (lowerStr (trimStr q)) ||
              (o.aliases.any fun a => eqIgnoreCase a (lowerStr (trimStr q))) ||
              startsW (lowerStr o.label) (lowerStr (trimStr q)) ||
              (o.aliases.any fun a => startsW (lowerStr a) (lowerStr (trimStr q))) ||
              strContains (lowerStr o.label) (lowerStr (trimStr q)) ||
              strContains (lowerStr o.hint) (lowerStr (trimStr q))) = false) →
        match_palette q = none) := by
  refine ⟨?_, ?_, ?_⟩
  · intro A B q hemp hA hB1 hB2 hB3 hB4 hB5 hB6 hB7
    have hBscore : score_option B q = 20 := by
      simp [score_option, hemp, hB1, hB2, hB3, hB4, hB5, hB6, hB7]
    have hAscore : 100 ≤ score_option A q := by
      simp only [score_option, hemp, Bool.false_eq_true, if_false, hA,
        beq_self_eq_true, if_true]
      split_ifs <;> omega
    omega
  · intro q i h
    simp only [match_palette] at h
    by_cases hemp : (trimStr q).isEmpty
    · rw [if_pos hemp] at h
      exact absurd h (by simp)
    · rw [if_neg hemp] at h
      rcases paletteLoop_spec (trimStr q) MENU_OPTIONS 0 none 0 with ⟨heq, _⟩ |
        ⟨kv, o2, hk, heq, hlt, hall, hfirst⟩
      · rw [heq] at h
        simp at h
      · rw [heq] at h
        simp only [hlt, if_pos, Nat.zero_add, Option.some.injEq] at h
        subst h
        refine ⟨o2, hk, hlt, ?_⟩
        intro j o3 hj
        refine ⟨hall j o3 hj, ?_⟩
        intro hscore
        by_contra hcon
        have hjlt : j < kv := by omega
        have := hfirst j o3 hjlt hj
        omega
  · intro q hall
    have hscores : ∀ o ∈ MENU_OPTIONS, score_option o (trimStr q) = 0 := by
      intro o ho
      have h := hall o ho
      simp only [Bool.or_eq_false_iff] at h
      obtain ⟨⟨⟨⟨⟨⟨c1, c2⟩, c3⟩, c4⟩, c5⟩, c6⟩, c7⟩ := h
      by_cases hemp : (lowerStr (trimStr q)).isEmpty
      · simp [score_option, hemp]
      · simp [score_option, hemp, c1, c2, c3, c4, c5, c6, c7]
    have hloop : ∀ l, (∀ o ∈ l, score_option o (trimStr q) = 0) →
        ∀ (i : Nat) (best : Option Nat),
          paletteLoop (trimStr q) i l best 0 = (best, 0) := by
      intro l
      induction l with
      | nil => intro _ i best; rfl
      | cons o rest ihl =>
        intro hl i best
        have h0 : score_option o (trimStr q) = 0 := hl o (by simp)
        simp only [paletteLoop, h0, lt_irrefl, if_false]
        exact ihl (fun o2 ho2 => hl o2 (List.mem_cons_of_mem _ ho2)) (i + 1) best
    simp only [match_palette]
    by_cases hemp : (trimStr q).isEmpty
    · rw [if_pos hemp]
    · rw [if_neg hemp]
      rw [hloop MENU_OPTIONS hscores 0 none]
      simp

/-- Witness for C4: a key-matched option outranks a hint-only option at the
concrete query "x"; the concrete query "t" selects index 1 (Trends) with the
maximal score and first-index tie resolution; the concrete query "zzz"
overlaps nothing and yields no match. -/
theorem C4_witness :
    score_option optHinted "x" < score_option optKeyed "x"
    ∧ (∃ o2, MENU_OPTIONS.get? 1 = some o2
        ∧ 0 < score_option o2 (trimStr "t")
        ∧ ∀ j o3, MENU_OPTIONS.get? j = some o3 →
            score_option o3 (trimStr "t") ≤ score_option o2 (trimStr "t")
            ∧ (score_option o3 (trimStr "t") = score_option o2 (trimStr "t") → 1 ≤ j))
    ∧ match_palette "zzz" = none :=
  ⟨C4_palette_scoring.1 optKeyed optHinted "x" (by decide) (by decide) (by decide)
      (by decide) (by decide) (by decide) (by decide) (by decide) (by decide),
    C4_palette_scoring.2.1 "t" 1 (by decide),
    C4_palette_scoring.2.2 "zzz" (by decide)⟩

end Xint
